import Mathlib

/-!
Shallow embedding of the TestOS batch kernel core: the trap context
(src/trap/context.rs), the application sequencer (src/batch.rs) and the
trap dispatcher (src/trap/mod.rs), together with the firmware halt wrapper
(src/sbi.rs) and the panic handler (src/lang_items.rs).

Memory is a flat byte map `Nat → Nat`; raw-pointer slice operations become
pointwise memory transformers. Console output, the `fence.i` instruction,
the SBI shutdown call and the memory writes are additionally recorded as an
event trace, so ordering properties of `load_app` are visible.
-/

namespace TestOS

/-- Fixed load address of the execution region (`APP_BASE_ADDRESS`, src/batch.rs). -/
def APP_BASE_ADDRESS : Nat := 0x80400000

/-- Capacity of the execution region (`APP_SIZE_LIMIT`, src/batch.rs). -/
def APP_SIZE_LIMIT : Nat := 0x20000

/-- Maximum number of applications (`MAX_APP_NUM`, src/batch.rs). -/
def MAX_APP_NUM : Nat := 16

/-- Previous-privilege field `SPP` of the `sstatus` CSR (src/trap/context.rs). -/
inductive SPP where
  | Supervisor
  | User
  deriving DecidableEq, Repr

/-- The `sstatus` CSR as the dispatcher sees it: the `SPP` field plus the
remaining bits, which `app_init_context` leaves untouched. -/
structure Sstatus where
  spp : SPP
  bits : Nat
  deriving DecidableEq, Repr

/-- The `set_spp` operation on `sstatus` (riscv crate): update the SPP field only. -/
def Sstatus.set_spp (s : Sstatus) (v : SPP) : Sstatus :=
  { s with spp := v }

/-- Trap context (src/trap/context.rs): the 32 general registers as an
index-to-value map, the `sstatus` CSR and the saved program counter `sepc`. -/
structure TrapContext where
  x : Nat → Nat
  sstatus : Sstatus
  sepc : Nat

/-- The store `self.x[2] = sp` of `TrapContext::set_sp`. -/
def TrapContext.set_sp (cx : TrapContext) (sp : Nat) : TrapContext :=
  { cx with x := fun i => if i = 2 then sp else cx.x i }

/-- The constructor `TrapContext::app_init_context(entry, sp)`: read the ambient
`sstatus` (parameter `s0`), set its SPP field to User, zero all registers,
set `sepc` to the entry address, then store the stack pointer in `x[2]`. -/
def TrapContext.app_init_context (s0 : Sstatus) (entry sp : Nat) : TrapContext :=
  let ss := s0.set_spp SPP.User
  let cx : TrapContext := { x := fun _ => 0, sstatus := ss, sepc := entry }
  cx.set_sp sp

/-- Flat byte-addressed memory. -/
def Mem := Nat → Nat

/-- The slice fill `from_raw_parts_mut(base, len).fill(0)` as a memory transformer. -/
def memFill (m : Mem) (base len : Nat) : Mem :=
  fun a => if base ≤ a ∧ a < base + len then 0 else m a

/-- The slice copy `dst.copy_from_slice(src)` for `dst = from_raw_parts_mut(dst, len)`
and `src = from_raw_parts(src, len)` as a memory transformer. -/
def memCopySlice (m : Mem) (dst src len : Nat) : Mem :=
  fun a => if dst ≤ a ∧ a < dst + len then m (src + (a - dst)) else m a

/-- Observable actions of the kernel core: console messages (one constructor per
distinct `println!` site, carrying the formatted data), the `fence.i`
instruction, the two slice writes of `load_app`, and the SBI shutdown call. -/
inductive KEvent where
  | printAllCompleted
  | printLoading (id : Nat)
  | printPageFaultKilled
  | printIllegalKilled
  | printPanicked
  | fenceI
  | evFill (base len : Nat)
  | evCopy (dst src len : Nat)
  | sbiShutdown
  deriving DecidableEq, Repr

/-- Sequencer state (`AppManager`, src/batch.rs): application count, current
index, and the boundary table (`app_start`). -/
structure AppManager where
  num_app : Nat
  current_app : Nat
  app_start : Nat → Nat

/-- The `lazy_static` initializer of `APP_MANAGER`: the count and boundary table
are read from the embedded table and the current index starts at 0. -/
def AppManager.init (num_app : Nat) (table : Nat → Nat) : AppManager :=
  { num_app := num_app, current_app := 0, app_start := table }

/-- `AppManager::get_current_app`: return the current index (`&self`, pure read). -/
def AppManager.get_current_app (self : AppManager) : Nat :=
  self.current_app

/-- `AppManager::move_to_next_app`: increment the current index by one. -/
def AppManager.move_to_next_app (self : AppManager) : AppManager :=
  { self with current_app := self.current_app + 1 }

/-- `AppManager::load_app(app_id)` (src/batch.rs lines 156-174), as an event
trace plus the resulting memory. If `app_id >= num_app` it prints a message
and invokes `sbi::shutdown()`, which never returns (`none`). Otherwise, in
source order: print the loading message, execute `fence.i`, zero the whole
execution region, then copy `app_start[app_id+1] - app_start[app_id]` bytes
from `app_start[app_id]` to `APP_BASE_ADDRESS`. -/
def AppManager.load_app (self : AppManager) (mem : Mem) (app_id : Nat) :
    List KEvent × Option Mem :=
  if app_id ≥ self.num_app then
    ([KEvent.printAllCompleted, KEvent.sbiShutdown], none)
  else
    let src := self.app_start app_id
    let len := self.app_start (app_id + 1) - src
    let mem1 := memFill mem APP_BASE_ADDRESS APP_SIZE_LIMIT
    let mem2 := memCopySlice mem1 APP_BASE_ADDRESS src len
    ([KEvent.printLoading app_id, KEvent.fenceI,
      KEvent.evFill APP_BASE_ADDRESS APP_SIZE_LIMIT,
      KEvent.evCopy APP_BASE_ADDRESS src len], some mem2)

/-- Kernel state the dispatcher and sequencer act on: the `APP_MANAGER`
contents and the machine memory (image blob plus execution region). -/
structure KState where
  mgr : AppManager
  mem : Mem

/-- Result of `run_next_app`: either the machine was halted (out-of-range load,
`shutdown` invoked), or application launch: `__restore` runs the given fresh
trap context against the new kernel state. -/
inductive RunResult where
  | halted
  | launched (st : KState) (cx : TrapContext)

/-- `run_next_app()` (src/batch.rs lines 204-224): read the current index, load
that application (which may halt), increment the index, build a fresh initial
trap context (entry `APP_BASE_ADDRESS`, user stack pointer `userSp`) and
restore into it. `s0` is the ambient `sstatus` read by `app_init_context`. -/
def run_next_app (st : KState) (s0 : Sstatus) (userSp : Nat) :
    List KEvent × RunResult :=
  let current := st.mgr.get_current_app
  match st.mgr.load_app st.mem current with
  | (evs, none) => (evs, RunResult.halted)
  | (evs, some mem2) =>
      (evs, RunResult.launched { mgr := st.mgr.move_to_next_app, mem := mem2 }
        (TrapContext.app_init_context s0 APP_BASE_ADDRESS userSp))

/-- Trap cause as decoded from `scause` (src/trap/mod.rs): the four causes the
dispatcher matches, and `unknown` for every other cause value. -/
inductive TrapCause where
  | userEnvCall
  | storeFault
  | storePageFault
  | illegalInstruction
  | unknown (code : Nat)
  deriving DecidableEq, Repr

/-- The syscall module (`crate::syscall::syscall`): call number and three
arguments in, an `isize` result out. The dispatcher is verified for every
handler, so it stays abstract. -/
def SyscallHandler := Nat → Nat → Nat → Nat → Int

/-- The Rust cast `as usize` applied to an `isize` value: reduce modulo 2^64. -/
def intToUsize (z : Int) : Nat :=
  (z % (2 ^ 64 : Int)).toNat

/-- Outcome of one dispatcher invocation: resume the same application from the
mutated context, restore into the next application's fresh context, halt via
the firmware call, or hang in the panic handler's infinite loop. -/
inductive StepOutcome where
  | resume (cx : TrapContext) (st : KState)
  | restoreNext (cx : TrapContext) (st : KState)
  | shutdownHalt
  | panicHang

/-- The panic handler (src/lang_items.rs lines 5-10): print the fixed message
`[kernel] Panicked` — ignoring the panic payload `info` — and loop forever. -/
def panicHandler (_info : TrapCause × Nat) : List KEvent × StepOutcome :=
  ([KEvent.printPanicked], StepOutcome.panicHang)

/-- Lift the never-returning `run_next_app` into a dispatcher outcome. -/
def outcomeOfRun : RunResult → StepOutcome
  | RunResult.halted => StepOutcome.shutdownHalt
  | RunResult.launched st cx => StepOutcome.restoreNext cx st

/-- `trap_handler(cx)` (src/trap/mod.rs lines 43-68). On `UserEnvCall`:
`cx.sepc += 4`, then `cx.x[10] = syscall(cx.x[17], [cx.x[10], cx.x[11],
cx.x[12]]) as usize`, and the same context/state resumes. On
`StoreFault`/`StorePageFault`/`IllegalInstruction`: print the kill message and
call `run_next_app()`, which never returns. On any other cause: panic with the
cause and `stval` as payload, which enters the panic handler. -/
def trap_handler (sysc : SyscallHandler) (s0 : Sstatus) (userSp : Nat)
    (cause : TrapCause) (stval : Nat) (cx : TrapContext) (st : KState) :
    List KEvent × StepOutcome :=
  match cause with
  | TrapCause.userEnvCall =>
      let cx1 : TrapContext := { cx with sepc := cx.sepc + 4 }
      let ret := intToUsize (sysc (cx1.x 17) (cx1.x 10) (cx1.x 11) (cx1.x 12))
      let cx2 : TrapContext := { cx1 with x := fun i => if i = 10 then ret else cx1.x i }
      ([], StepOutcome.resume cx2 st)
  | TrapCause.storeFault =>
      let r := run_next_app st s0 userSp
      (KEvent.printPageFaultKilled :: r.1, outcomeOfRun r.2)
  | TrapCause.storePageFault =>
      let r := run_next_app st s0 userSp
      (KEvent.printPageFaultKilled :: r.1, outcomeOfRun r.2)
  | TrapCause.illegalInstruction =>
      let r := run_next_app st s0 userSp
      (KEvent.printIllegalKilled :: r.1, outcomeOfRun r.2)
  | TrapCause.unknown code =>
      panicHandler (TrapCause.unknown code, stval)

/-- Kernel states reachable by the batch system: a freshly initialized manager
with any memory, and every state produced by a successful `run_next_app`
(launched either at boot or from the dispatcher's fault branches; the syscall
branch leaves the state unchanged). -/
inductive Reachable : KState → Prop where
  | boot (n : Nat) (table : Nat → Nat) (mem : Mem) :
      Reachable { mgr := AppManager.init n table, mem := mem }
  | step (st st' : KState) (cx : TrapContext) (evs : List KEvent)
      (s0 : Sstatus) (userSp : Nat) :
      Reachable st →
      run_next_app st s0 userSp = (evs, RunResult.launched st' cx) →
      Reachable st'

/-- Observer: the sequencer index carried by a dispatcher outcome, when any. -/
def StepOutcome.currentAfter : StepOutcome → Option Nat
  | StepOutcome.resume _ st => some st.mgr.current_app
  | StepOutcome.restoreNext _ st => some st.mgr.current_app
  | _ => none

/-! ## Concrete inputs used by witnesses and counterexamples -/

/-- Ascending boundary table: application `i` occupies 8 bytes at
`0x80200000 + 8 i`, entirely below the execution region. -/
def tbl0 : Nat → Nat := fun i => 0x80200000 + 8 * i

/-- Concrete memory: byte 7 everywhere below the execution region, 0 at and
above it. -/
def mem0 : Mem := fun a => if a < APP_BASE_ADDRESS then 7 else 0

/-- Concrete manager with two applications, index 1 (application 0 executing). -/
def mgr0 : AppManager :=
  { num_app := 2, current_app := 1, app_start := tbl0 }

/-- Concrete kernel state for the fault-isolation scenario. -/
def st0 : KState := { mgr := mgr0, mem := mem0 }

/-- Ambient `sstatus` with previous privilege Supervisor. -/
def s00 : Sstatus := { spp := SPP.Supervisor, bits := 0 }

/-- Concrete trap context. -/
def cx0 : TrapContext := TrapContext.app_init_context s00 APP_BASE_ADDRESS 0x80220000

/-- Concrete syscall handler returning the negated call number. -/
def sysc0 : SyscallHandler := fun n _ _ _ => -(n : Int)

/-- Manager whose single application is one byte larger than the execution
region's capacity, with image bytes starting at address 0. -/
def mgrBig : AppManager :=
  { num_app := 1, current_app := 0,
    app_start := fun i => if i = 0 then 0 else APP_SIZE_LIMIT + 1 }

/-! ## Helper lemmas about the sequencer's load operation -/

/-- Memory produced by a valid `load_app`: zero the region, then copy the
image span over its start. -/
def loadedMem (self : AppManager) (mem : Mem) (id : Nat) : Mem :=
  memCopySlice (memFill mem APP_BASE_ADDRESS APP_SIZE_LIMIT)
    APP_BASE_ADDRESS (self.app_start id)
    (self.app_start (id + 1) - self.app_start id)

/-- Unfolding of `load_app` on a valid index. -/
theorem load_app_of_lt (self : AppManager) (mem : Mem) (id : Nat)
    (hid : id < self.num_app) :
    self.load_app mem id =
      ([KEvent.printLoading id, KEvent.fenceI,
        KEvent.evFill APP_BASE_ADDRESS APP_SIZE_LIMIT,
        KEvent.evCopy APP_BASE_ADDRESS (self.app_start id)
          (self.app_start (id + 1) - self.app_start id)],
       some (loadedMem self mem id)) := by
  unfold AppManager.load_app loadedMem
  rw [if_neg (by omega)]

/-- Bytes within the image length hold the blob's bytes, provided the image
span lies below the execution region. -/
theorem loadedMem_copy_lt (self : AppManager) (mem : Mem) (id o : Nat)
    (hdisj : self.app_start (id + 1) ≤ APP_BASE_ADDRESS)
    (ho : o < self.app_start (id + 1) - self.app_start id) :
    loadedMem self mem id (APP_BASE_ADDRESS + o) = mem (self.app_start id + o) := by
  unfold loadedMem memCopySlice memFill
  rw [if_pos ⟨Nat.le_add_right _ _, by omega⟩]
  have h : self.app_start id + (APP_BASE_ADDRESS + o - APP_BASE_ADDRESS) =
      self.app_start id + o := by omega
  rw [h, if_neg (by omega)]

/-- Bytes of the region beyond the image length are zero. -/
theorem loadedMem_zero_beyond (self : AppManager) (mem : Mem) (id o : Nat)
    (hlen : self.app_start (id + 1) - self.app_start id ≤ o)
    (ho : o < APP_SIZE_LIMIT) :
    loadedMem self mem id (APP_BASE_ADDRESS + o) = 0 := by
  unfold loadedMem memCopySlice memFill
  rw [if_neg (by omega), if_pos ⟨Nat.le_add_right _ _, by omega⟩]

/-- When the image fits the region's capacity, addresses outside the region
are untouched. -/
theorem loadedMem_frame (self : AppManager) (mem : Mem) (id a : Nat)
    (hfit : self.app_start (id + 1) - self.app_start id ≤ APP_SIZE_LIMIT)
    (ha : a < APP_BASE_ADDRESS ∨ APP_BASE_ADDRESS + APP_SIZE_LIMIT ≤ a) :
    loadedMem self mem id a = mem a := by
  unfold loadedMem memCopySlice memFill
  rw [if_neg (by omega), if_neg (by omega)]

/-- Unfolding of `run_next_app` when the current index is in range: the
current application is loaded, then the index is incremented, and a fresh
initial context is restored. -/
theorem run_next_app_of_lt (st : KState) (s0 : Sstatus) (userSp : Nat)
    (hlt : st.mgr.current_app < st.mgr.num_app) :
    run_next_app st s0 userSp =
      ([KEvent.printLoading st.mgr.current_app, KEvent.fenceI,
        KEvent.evFill APP_BASE_ADDRESS APP_SIZE_LIMIT,
        KEvent.evCopy APP_BASE_ADDRESS (st.mgr.app_start st.mgr.current_app)
          (st.mgr.app_start (st.mgr.current_app + 1) -
            st.mgr.app_start st.mgr.current_app)],
       RunResult.launched
         { mgr := st.mgr.move_to_next_app,
           mem := loadedMem st.mgr st.mem st.mgr.current_app }
         (TrapContext.app_init_context s0 APP_BASE_ADDRESS userSp)) := by
  rw [run_next_app, show st.mgr.get_current_app = st.mgr.current_app from rfl,
    load_app_of_lt st.mgr st.mem st.mgr.current_app hlt]

/-- Reachability invariant: the current index never exceeds the count. -/
theorem reachable_current_le (st : KState) (h : Reachable st) :
    st.mgr.current_app ≤ st.mgr.num_app := by
  induction h with
  | boot n table mem => exact Nat.zero_le n
  | step st st' cx evs s0 userSp hr hrun ih =>
      rcases Nat.lt_or_ge st.mgr.current_app st.mgr.num_app with hlt | hge
      · rw [run_next_app_of_lt st s0 userSp hlt] at hrun
        simp only [Prod.mk.injEq, RunResult.launched.injEq] at hrun
        obtain ⟨-, hst, -⟩ := hrun
        rw [← hst]
        simpa [AppManager.move_to_next_app] using hlt
      · rw [run_next_app,
          show st.mgr.get_current_app = st.mgr.current_app from rfl] at hrun
        unfold AppManager.load_app at hrun
        rw [if_pos hge] at hrun
        simp at hrun

/-! ## Claim theorems -/

/-- C1: for every valid application index `id < count`, `load(id)` first zeroes
the entire execution region (the fill event precedes the copy event, and the
copy is applied to the zeroed memory), then copies exactly
`boundary[id+1] - boundary[id]` bytes from the image blob starting at
`boundary[id]` to the start of the execution region, so that afterwards every
byte of the region beyond that length is zero. The copied-bytes identity is
stated for an image span lying below the execution region, as the embedded
table provides. -/
theorem C1_load_copies_exactly_and_zeroes_rest (self : AppManager) (mem : Mem)
    (id : Nat) (hid : id < self.num_app)
    (hdisj : self.app_start (id + 1) ≤ APP_BASE_ADDRESS) :
    ∃ mem2 : Mem,
      self.load_app mem id =
        ([KEvent.printLoading id, KEvent.fenceI,
          KEvent.evFill APP_BASE_ADDRESS APP_SIZE_LIMIT,
          KEvent.evCopy APP_BASE_ADDRESS (self.app_start id)
            (self.app_start (id + 1) - self.app_start id)], some mem2) ∧
      (∀ o : Nat, o < self.app_start (id + 1) - self.app_start id →
        mem2 (APP_BASE_ADDRESS + o) = mem (self.app_start id + o)) ∧
      (∀ o : Nat, self.app_start (id + 1) - self.app_start id ≤ o →
        o < APP_SIZE_LIMIT → mem2 (APP_BASE_ADDRESS + o) = 0) :=
  ⟨loadedMem self mem id, load_app_of_lt self mem id hid,
    fun o ho => loadedMem_copy_lt self mem id o hdisj ho,
    fun o h1 h2 => loadedMem_zero_beyond self mem id o h1 h2⟩

/-- C1 witness: on a concrete two-application table below the region, loading
application 0 reproduces blob byte 3 at region offset 3 and leaves region
offset 100 (past the 8-byte image) zero. -/
theorem C1_witness : ∃ mem2 : Mem,
    (mgr0.load_app mem0 0).2 = some mem2 ∧
    mem2 (APP_BASE_ADDRESS + 3) = mem0 (tbl0 0 + 3) ∧
    mem2 (APP_BASE_ADDRESS + 100) = 0 := by
  obtain ⟨mem2, heq, hcopy, hzero⟩ :=
    C1_load_copies_exactly_and_zeroes_rest mgr0 mem0 0 (by decide) (by decide)
  exact ⟨mem2, by rw [heq], hcopy 3 (by decide), hzero 100 (by decide) (by decide)⟩

/-- C3: for every `id >= count`, `load_app(id)` prints the completion message
and invokes the firmware shutdown call, producing no memory to run (`none`,
the call never returns); the result is the same for every boundary table, so
the table is never read. -/
theorem C3_load_out_of_range_halts (self : AppManager) (mem : Mem) (id : Nat)
    (h : self.num_app ≤ id) :
    self.load_app mem id = ([KEvent.printAllCompleted, KEvent.sbiShutdown], none) ∧
    (∀ table : Nat → Nat,
      AppManager.load_app { self with app_start := table } mem id =
        ([KEvent.printAllCompleted, KEvent.sbiShutdown], none)) := by
  constructor
  · unfold AppManager.load_app
    rw [if_pos h]
  · intro table
    unfold AppManager.load_app
    rw [if_pos h]

/-- C3 witness: loading index 2 on the concrete two-application manager halts,
independently of the boundary table. -/
theorem C3_witness :
    mgr0.load_app mem0 2 = ([KEvent.printAllCompleted, KEvent.sbiShutdown], none) ∧
    (∀ table : Nat → Nat,
      AppManager.load_app { mgr0 with app_start := table } mem0 2 =
        ([KEvent.printAllCompleted, KEvent.sbiShutdown], none)) :=
  C3_load_out_of_range_halts mgr0 mem0 2 (by decide)

/-- C4: on a user system call, the dispatcher advances the saved program
counter by exactly 4, invokes the syscall handler with the number from x17 and
the arguments from x10, x11, x12, writes the handler's (usize-cast) return
value into x10, leaves every other register and the status word unchanged, and
resumes the same application (same kernel state) from that context, printing
nothing. -/
theorem C4_syscall_roundtrip (sysc : SyscallHandler) (s0 : Sstatus)
    (userSp stval : Nat) (cx : TrapContext) (st : KState) :
    ∃ cx' : TrapContext,
      trap_handler sysc s0 userSp TrapCause.userEnvCall stval cx st =
        ([], StepOutcome.resume cx' st) ∧
      cx'.sepc = cx.sepc + 4 ∧
      cx'.x 10 = intToUsize (sysc (cx.x 17) (cx.x 10) (cx.x 11) (cx.x 12)) ∧
      (∀ i : Nat, i ≠ 10 → cx'.x i = cx.x i) ∧
      cx'.sstatus = cx.sstatus := by
  refine ⟨_, rfl, rfl, ?_, ?_, rfl⟩
  · simp [trap_handler]
  · intro i hi
    simp [trap_handler, hi]

/-- C6 (amended): on any unrecognized trap cause, the dispatcher panics with
the cause and `stval` as payload; the panic handler prints only the fixed
message and loops forever — it does not invoke the firmware halt call and does
not print the diagnostic detail — and the dispatcher neither resumes nor
advances the sequencer. -/
theorem C6_unknown_trap_panics_and_hangs (sysc : SyscallHandler) (s0 : Sstatus)
    (userSp stval code : Nat) (cx : TrapContext) (st : KState) :
    trap_handler sysc s0 userSp (TrapCause.unknown code) stval cx st =
      ([KEvent.printPanicked], StepOutcome.panicHang) :=
  rfl

/-- C6 counterexample: at the concrete unrecognized cause 5 with fault value
77, the dispatcher's trace is exactly the fixed panic message — it contains no
shutdown call — and the outcome is the panic handler's infinite loop, not the
firmware halt. -/
theorem C6_counterexample :
    trap_handler sysc0 s00 0 (TrapCause.unknown 5) 77 cx0 st0 =
      ([KEvent.printPanicked], StepOutcome.panicHang) ∧
    KEvent.sbiShutdown ∉ (trap_handler sysc0 s00 0 (TrapCause.unknown 5) 77 cx0 st0).1 ∧
    StepOutcome.panicHang ≠ StepOutcome.shutdownHalt :=
  ⟨rfl, by decide, fun h => StepOutcome.noConfusion h⟩

/-- C7: `app_init_context(entry, sp)` yields a context whose saved program
counter is `entry`, whose stack-pointer register x2 is `sp`, whose every other
general register is zero, and whose status word records previous privilege
User. -/
theorem C7_app_init_context_shape (s0 : Sstatus) (entry sp : Nat) :
    (TrapContext.app_init_context s0 entry sp).sepc = entry ∧
    (TrapContext.app_init_context s0 entry sp).x 2 = sp ∧
    (∀ i : Nat, i ≠ 2 → (TrapContext.app_init_context s0 entry sp).x i = 0) ∧
    (TrapContext.app_init_context s0 entry sp).sstatus.spp = SPP.User := by
  refine ⟨rfl, ?_, ?_, rfl⟩
  · simp [TrapContext.app_init_context, TrapContext.set_sp]
  · intro i hi
    simp [TrapContext.app_init_context, TrapContext.set_sp, hi]

/-- C9: evaluating `load_app` at the failing input (valid index 0 of the
concrete manager): the `fence.i` event occurs before both memory writes, and
no instruction-cache invalidation follows them — the code invalidates the
cache before overwriting the region, not after, contradicting the claim. -/
theorem C9_fence_precedes_writes :
    (mgr0.load_app mem0 0).1 =
      [KEvent.printLoading 0, KEvent.fenceI,
       KEvent.evFill APP_BASE_ADDRESS APP_SIZE_LIMIT,
       KEvent.evCopy APP_BASE_ADDRESS (tbl0 0) 8] ∧
    KEvent.fenceI ∉ List.drop 2 (mgr0.load_app mem0 0).1 := by
  constructor
  · decide
  · decide

/-- C2 counterexample: with two applications and application 0 executing (the
sequencer index is 1, as `run_next_app` increments it right after loading), a
store fault handled by the dispatcher leaves the sequencer index at 2, not at
k+1 = 1 as the claim states. -/
theorem C2_counterexample :
    st0.mgr.current_app = 1 ∧ st0.mgr.num_app = 2 ∧
    (trap_handler sysc0 s00 0x80220000 TrapCause.storeFault 0 cx0 st0).2.currentAfter
      = some 2 ∧
    some (2 : Nat) ≠ some (1 : Nat) :=
  ⟨rfl, rfl, rfl, by decide⟩

/-- C2 (amended): when the dispatcher handles a store, store-page or
illegal-instruction fault raised while application k executes (so the
sequencer index reads k+1) and `count > k+1`, it loads application k+1's image
into the execution region (bytes beyond its length zero), restores into a
fresh initial context, leaves the boundary table and count unchanged, and the
sequencer index becomes k+2, the index one past the newly running
application. -/
theorem C2_fault_loads_next_and_advances (k : Nat) (cause : TrapCause)
    (sysc : SyscallHandler) (s0 : Sstatus) (userSp stval : Nat)
    (cx : TrapContext) (st : KState)
    (hcur : st.mgr.current_app = k + 1)
    (hk : k + 1 < st.mgr.num_app)
    (hcause : cause = TrapCause.storeFault ∨ cause = TrapCause.storePageFault ∨
      cause = TrapCause.illegalInstruction)
    (hdisj : st.mgr.app_start (k + 2) ≤ APP_BASE_ADDRESS) :
    ∃ cx' : TrapContext, ∃ st' : KState,
      (trap_handler sysc s0 userSp cause stval cx st).2 =
        StepOutcome.restoreNext cx' st' ∧
      st'.mgr.current_app = k + 2 ∧
      st'.mgr.app_start = st.mgr.app_start ∧
      st'.mgr.num_app = st.mgr.num_app ∧
      cx' = TrapContext.app_init_context s0 APP_BASE_ADDRESS userSp ∧
      (∀ o : Nat, o < st.mgr.app_start (k + 2) - st.mgr.app_start (k + 1) →
        st'.mem (APP_BASE_ADDRESS + o) = st.mem (st.mgr.app_start (k + 1) + o)) ∧
      (∀ o : Nat, st.mgr.app_start (k + 2) - st.mgr.app_start (k + 1) ≤ o →
        o < APP_SIZE_LIMIT → st'.mem (APP_BASE_ADDRESS + o) = 0) := by
  have hlt : st.mgr.current_app < st.mgr.num_app := by omega
  have hrn := run_next_app_of_lt st s0 userSp hlt
  refine ⟨TrapContext.app_init_context s0 APP_BASE_ADDRESS userSp,
    { mgr := st.mgr.move_to_next_app,
      mem := loadedMem st.mgr st.mem st.mgr.current_app },
    ?_, ?_, rfl, rfl, rfl, ?_, ?_⟩
  · rcases hcause with h | h | h <;> subst h <;>
      simp only [trap_handler] <;> rw [hrn] <;> rfl
  · simp [AppManager.move_to_next_app, hcur]
  · intro o ho
    rw [hcur]
    exact loadedMem_copy_lt st.mgr st.mem (k + 1) o hdisj ho
  · intro o h1 h2
    rw [hcur]
    exact loadedMem_zero_beyond st.mgr st.mem (k + 1) o h1 h2

/-- C2 witness: in the concrete two-application state with application 0
executing, a store fault leads to application 1's image in the region and
sequencer index 2. -/
theorem C2_witness : ∃ cx' : TrapContext, ∃ st' : KState,
    (trap_handler sysc0 s00 0x80220000 TrapCause.storeFault 0 cx0 st0).2 =
      StepOutcome.restoreNext cx' st' ∧
    st'.mgr.current_app = 2 ∧
    st'.mem (APP_BASE_ADDRESS + 3) = st0.mem (tbl0 1 + 3) := by
  obtain ⟨cx', st', heq, hcur, htbl, hnum, hcx, hcopy, hzero⟩ :=
    C2_fault_loads_next_and_advances 0 TrapCause.storeFault sysc0 s00
      0x80220000 0 cx0 st0 rfl (by decide) (Or.inl rfl) (by decide)
  exact ⟨cx', st', heq, hcur, hcopy 3 (by decide)⟩

/-- C5 counterexample: a single application one byte larger than the region's
capacity is loaded without any fatal halt (no shutdown event), and the byte at
`APP_BASE_ADDRESS + APP_SIZE_LIMIT` — the first address outside the execution
region — changes from 0 to 7: `load_app` silently copies past the region. -/
theorem C5_counterexample :
    mgrBig.app_start 1 - mgrBig.app_start 0 = APP_SIZE_LIMIT + 1 ∧
    (∃ mem2 : Mem, (mgrBig.load_app mem0 0).2 = some mem2 ∧
      mem2 (APP_BASE_ADDRESS + APP_SIZE_LIMIT) = 7) ∧
    mem0 (APP_BASE_ADDRESS + APP_SIZE_LIMIT) = 0 ∧
    KEvent.sbiShutdown ∉ (mgrBig.load_app mem0 0).1 := by
  refine ⟨by decide, ⟨_, rfl, by decide⟩, by decide, by decide⟩

/-- C5 (amended): for every valid id whose image length is at most the
region's capacity, `load_app(id)` writes no byte outside the execution region
`[APP_BASE_ADDRESS, APP_BASE_ADDRESS + APP_SIZE_LIMIT)`. The code performs no
runtime capacity check: an oversize image is neither halted on nor truncated
but copied in full past the region (see the counterexample). -/
theorem C5_no_write_outside_region_when_fits (self : AppManager) (mem : Mem)
    (id : Nat) (hid : id < self.num_app)
    (hfit : self.app_start (id + 1) - self.app_start id ≤ APP_SIZE_LIMIT) :
    ∃ mem2 : Mem, (self.load_app mem id).2 = some mem2 ∧
      ∀ a : Nat, a < APP_BASE_ADDRESS ∨ APP_BASE_ADDRESS + APP_SIZE_LIMIT ≤ a →
        mem2 a = mem a :=
  ⟨loadedMem self mem id, by rw [load_app_of_lt self mem id hid],
    fun a ha => loadedMem_frame self mem id a hfit ha⟩

/-- C5 witness: loading the concrete 8-byte application 0 leaves the byte just
past the region, and a byte far below it, unchanged. -/
theorem C5_witness : ∃ mem2 : Mem, (mgr0.load_app mem0 0).2 = some mem2 ∧
    mem2 (APP_BASE_ADDRESS + APP_SIZE_LIMIT + 5) =
      mem0 (APP_BASE_ADDRESS + APP_SIZE_LIMIT + 5) ∧
    mem2 3 = mem0 3 := by
  obtain ⟨mem2, heq, hframe⟩ :=
    C5_no_write_outside_region_when_fits mgr0 mem0 0 (by decide) (by decide)
  exact ⟨mem2, heq, hframe _ (Or.inr (by omega)), hframe 3 (Or.inl (by decide))⟩

/-- C8: the sequencer index starts at 0 after initialization; `current()` is a
pure read of the index; `advance()` increments it by exactly one and changes
neither the count nor the boundary table; and in every reachable kernel state
the index lies in `[0, count]`. -/
theorem C8_sequencer_index_invariants (m : AppManager) (st : KState)
    (hr : Reachable st) :
    (∀ n : Nat, ∀ table : Nat → Nat, (AppManager.init n table).current_app = 0) ∧
    m.get_current_app = m.current_app ∧
    m.move_to_next_app.current_app = m.current_app + 1 ∧
    m.move_to_next_app.num_app = m.num_app ∧
    m.move_to_next_app.app_start = m.app_start ∧
    st.mgr.current_app ≤ st.mgr.num_app :=
  ⟨fun _ _ => rfl, rfl, rfl, rfl, rfl, reachable_current_le st hr⟩

/-- C8 witness: the invariants instantiated at the concrete manager and the
boot state of a two-application table. -/
theorem C8_witness :
    mgr0.get_current_app = mgr0.current_app ∧
    mgr0.move_to_next_app.current_app = mgr0.current_app + 1 ∧
    (KState.mk (AppManager.init 2 tbl0) mem0).mgr.current_app ≤
      (KState.mk (AppManager.init 2 tbl0) mem0).mgr.num_app := by
  obtain ⟨h0, h1, h2, h3, h4, h5⟩ :=
    C8_sequencer_index_invariants mgr0 ⟨AppManager.init 2 tbl0, mem0⟩
      (Reachable.boot 2 tbl0 mem0)
  exact ⟨h1, h2, h5⟩

/-- C10: `run_next_app` loads the application at the sequencer's current index
k and only afterwards increments the index: the launched state has application
k's image in the execution region while `current()` reads k+1 — the index
denotes the next application to launch, not the running one. -/
theorem C10_load_current_then_advance (st : KState) (s0 : Sstatus)
    (userSp k : Nat) (hk : st.mgr.current_app = k)
    (hlt : k < st.mgr.num_app)
    (hdisj : st.mgr.app_start (k + 1) ≤ APP_BASE_ADDRESS) :
    ∃ st' : KState, ∃ cx : TrapContext,
      (run_next_app st s0 userSp).2 = RunResult.launched st' cx ∧
      st'.mgr.current_app = k + 1 ∧
      (∀ o : Nat, o < st.mgr.app_start (k + 1) - st.mgr.app_start k →
        st'.mem (APP_BASE_ADDRESS + o) = st.mem (st.mgr.app_start k + o)) ∧
      (∀ o : Nat, st.mgr.app_start (k + 1) - st.mgr.app_start k ≤ o →
        o < APP_SIZE_LIMIT → st'.mem (APP_BASE_ADDRESS + o) = 0) := by
  subst hk
  refine ⟨{ mgr := st.mgr.move_to_next_app,
            mem := loadedMem st.mgr st.mem st.mgr.current_app },
    TrapContext.app_init_context s0 APP_BASE_ADDRESS userSp,
    by rw [run_next_app_of_lt st s0 userSp hlt], rfl,
    fun o ho => loadedMem_copy_lt st.mgr st.mem st.mgr.current_app o hdisj ho,
    fun o h1 h2 => loadedMem_zero_beyond st.mgr st.mem st.mgr.current_app o h1 h2⟩

/-- C10 witness: from the boot state of the concrete table, `run_next_app`
launches application 0 (its image byte 0 appears at the region base) and the
index afterwards reads 1. -/
theorem C10_witness : ∃ st' : KState, ∃ cx : TrapContext,
    (run_next_app (KState.mk (AppManager.init 2 tbl0) mem0) s00 0x80220000).2 =
      RunResult.launched st' cx ∧
    st'.mgr.current_app = 1 ∧
    st'.mem APP_BASE_ADDRESS = mem0 (tbl0 0) := by
  obtain ⟨st', cx, heq, hcur, hcopy, hzero⟩ :=
    C10_load_current_then_advance (KState.mk (AppManager.init 2 tbl0) mem0)
      s00 0x80220000 0 rfl (by decide) (by decide)
  refine ⟨st', cx, heq, hcur, ?_⟩
  have h := hcopy 0 (by decide)
  simpa using h

end TestOS
